import Mathlib

/-!
Verification of the set-segmentation core of an Apple Health swimming
analysis program (src/swimming.py), shallowly embedded in Lean 4.

Modelling conventions:
* Timestamps and durations are `Rat` (seconds, resp. minutes), matching the
  real-valued quantities the program computes with.
* A missing value (Python None / pandas NaN in an optional column) is `none`.
* The pandas float results that can be non-finite (the pace column, which is
  produced by a float division) are modelled by `PyVal`, with IEEE division
  semantics for division by zero made explicit in `pydiv`.
* One lap row of the DataFrame built in analyze_swim_sets is `Row`: the lap
  together with the "lap_start_diff_sec" column produced by diff(), which is
  `none` exactly on the first row (pandas diff yields NaN there).
* Grouping by the cumulative sum of the "is_new_set" column is `groupRows`:
  a group boundary is placed before every row whose flag is true, and the
  first row always opens the first group (rows before the first true flag
  share cumulative sum 0 and hence form a group of their own).
-/

/-- A lap record as built by process_lap_data: start timestamp (seconds),
duration in minutes (the extractor's native unit), optional stroke style
label and optional swolf score. -/
structure Lap where
  lap_start : Rat
  lap_time_min : Rat
  stroke_style : Option String
  swolf : Option Rat
  deriving DecidableEq

/-- A pandas float value as it appears in the pace column: an ordinary
(rational) number, positive or negative infinity, or NaN. -/
inductive PyVal where
  | num (q : Rat)
  | inf
  | ninf
  | nan
  deriving DecidableEq

/-- Python / IEEE-754 float division: a finite quotient when the divisor is
nonzero, otherwise +inf, -inf or NaN according to the sign of the dividend. -/
def pydiv (a b : Rat) : PyVal :=
  if b ≠ 0 then PyVal.num (a / b)
  else if 0 < a then PyVal.inf
  else if a < 0 then PyVal.ninf
  else PyVal.nan

/-- Config.REST_THRESHOLD_SEC. -/
def REST_THRESHOLD_SEC : Rat := 30

/-- Config.LAP_DISTANCE_M. -/
def LAP_DISTANCE_M : Rat := 25

/-- Config.PACE_DISTANCE_M. -/
def PACE_DISTANCE_M : Rat := 50

/-- Ordering of laps by start timestamp, the key of
lap_df.sort_values(by="lap_start"). -/
def lapRel (a b : Lap) : Prop := a.lap_start ≤ b.lap_start

instance : DecidableRel lapRel :=
  fun a b => inferInstanceAs (Decidable (a.lap_start ≤ b.lap_start))

instance : IsTotal Lap lapRel := ⟨fun a b => le_total a.lap_start b.lap_start⟩

instance : IsTrans Lap lapRel := ⟨fun _ _ _ h h' => le_trans h h'⟩

/-- lap_df.sort_values(by="lap_start"): sort the laps by start time. -/
def sortLaps (laps : List Lap) : List Lap := laps.insertionSort lapRel

/-- One row of the lap DataFrame after the diff step: the lap plus the
"lap_start_diff_sec" column (seconds since the previous row's start;
`none` on the first row, where pandas diff yields NaN). -/
structure Row where
  lap : Lap
  lap_start_diff_sec : Option Rat
  deriving DecidableEq

/-- lap_df["lap_start_diff_sec"] = lap_df["lap_start"].diff().dt.total_seconds():
pair each lap with the gap from the previous row's start; the first row gets
`none`. -/
def addDiffs : List Lap → List Row
  | [] => []
  | l :: ls =>
    ⟨l, none⟩ :: List.zipWith (fun a b => ⟨b, some (b.lap_start - a.lap_start)⟩) (l :: ls) ls

/-- The "is_new_set" flag of one row: diff > REST_THRESHOLD_SEC, with the
undefined first-row diff counting as a set start (lines 254-255 of the
source; the grouping treats the first row as opening set 1 either way,
since group boundaries come from changes of the cumulative sum). -/
def is_new_set (thr : Rat) (r : Row) : Bool :=
  match r.lap_start_diff_sec with
  | none => true
  | some g => decide (g > thr)

/-- Worker for `groupRows`: `cur` is the current group accumulated in
reverse; a row whose flag is true closes the current group and opens a new
one. -/
def groupRowsGo (thr : Rat) (cur : List Row) : List Row → List (List Row)
  | [] => [cur.reverse]
  | r :: rs =>
    if is_new_set thr r then cur.reverse :: groupRowsGo thr [r] rs
    else groupRowsGo thr (r :: cur) rs

/-- lap_df.groupby("set_id") where set_id = is_new_set.cumsum(): split the
row sequence into maximal contiguous groups, a new group starting at every
row flagged is_new_set (the first row always starts the first group). -/
def groupRows (thr : Rat) : List Row → List (List Row)
  | [] => []
  | r :: rs => groupRowsGo thr [r] rs

/-- One output row of analyze_swim_sets after the rename and the derived
columns (set_start_time, total_time_sec, avg_swolf, stroke_combo,
lap_count, distance_m, pace_sec_per_50m). -/
structure SetSummary where
  set_start_time : Rat
  total_time_sec : Rat
  avg_swolf : Option Rat
  stroke_combo : String
  lap_count : Nat
  distance_m : Rat
  pace_sec_per_50m : PyVal
  deriving DecidableEq

/-- A default row, used only as the `headD` fallback for the (always
nonempty) groups when taking the first lap of a set. -/
def defaultRow : Row := ⟨⟨0, 0, none, none⟩, none⟩

/-- The stroke list of a set, from the aggregation lambda
"/".join(sorted(set(styles.dropna()))): the distinct non-missing stroke
styles, sorted lexicographically. -/
def strokeList (s : List Row) : List String :=
  ((s.filterMap (fun r => r.lap.stroke_style)).dedup).insertionSort (fun a b => a ≤ b)

/-- Aggregation of one group of rows into one SetSummary, following the
agg dictionary of analyze_swim_sets plus the derived columns:
* set_start_time: "first" on lap_start (groups are nonempty and lap_start
  is never null, so this is the head);
* total_time_sec: sum of lap_time_min, multiplied by 60 afterwards
  (minutes to seconds, applied once to the aggregated column);
* avg_swolf: pandas mean, which skips missing values and is NaN (here
  `none`) when no value is present;
* stroke_combo: slash-join of the sorted distinct non-missing styles;
* lap_count: pandas "count" on the lap_start_diff_sec column, which counts
  only the non-null entries of the group;
* distance_m: lap_count * LAP_DISTANCE_M;
* pace_sec_per_50m: total_time_sec / (distance_m / PACE_DISTANCE_M) as a
  float division. -/
def aggSet (s : List Row) : SetSummary :=
  let swolfs := s.filterMap (fun r => r.lap.swolf)
  let lapCount := (s.filterMap (fun r => r.lap_start_diff_sec)).length
  let totalSec := ((s.map (fun r => r.lap.lap_time_min)).sum) * 60
  let dist := (lapCount : Rat) * LAP_DISTANCE_M
  { set_start_time := (s.headD defaultRow).lap.lap_start
    total_time_sec := totalSec
    avg_swolf := if swolfs.isEmpty then none else some (swolfs.sum / (swolfs.length : Rat))
    stroke_combo := String.intercalate "/" (strokeList s)
    lap_count := lapCount
    distance_m := dist
    pace_sec_per_50m := pydiv totalSec (dist / PACE_DISTANCE_M) }

/-- The groups of rows produced by the segmentation part of
analyze_swim_sets (sort, diff, flag, cumsum, groupby). -/
def analyzeSets (thr : Rat) (laps : List Lap) : List (List Row) :=
  groupRows thr (addDiffs (sortLaps laps))

/-- The summary rows produced by analyze_swim_sets on a nonempty lap
DataFrame. -/
def analyze (thr : Rat) (laps : List Lap) : List SetSummary :=
  (analyzeSets thr laps).map aggSet

/-- analyze_swim_sets including its behaviour on an empty lap DataFrame:
pd.DataFrame of an empty record list has no columns at all, so
lap_df.sort_values(by="lap_start") raises KeyError("lap_start") before any
other step runs. -/
def analyze_swim_sets (thr : Rat) (laps : List Lap) : Except String (List SetSummary) :=
  if laps.isEmpty then Except.error "KeyError: lap_start"
  else Except.ok (analyze thr laps)

/-- format_numeric_value: floor a finite value to one decimal place; NaN
fails the pd.notnull test and infinity fails the inequality test, so both
are returned unchanged; on negative infinity CPython math.floor raises
OverflowError. -/
def format_numeric_value : PyVal → Except String PyVal
  | PyVal.num q => Except.ok (PyVal.num ((⌊q * 10⌋ : Int) / 10))
  | PyVal.nan => Except.ok PyVal.nan
  | PyVal.inf => Except.ok PyVal.inf
  | PyVal.ninf => Except.error "OverflowError"

/-- Constants.STROKE_MAP: the Apple Health stroke-style code table. -/
def STROKE_MAP (c : String) : Option String :=
  if c = "1" then some "Mixed"
  else if c = "2" then some "Freestyle"
  else if c = "3" then some "Backstroke"
  else if c = "4" then some "Breaststroke"
  else if c = "5" then some "Butterfly"
  else if c = "6" then some "Other/Drill"
  else none

/-- Constants.STROKE_STYLE_KEY. -/
def STROKE_STYLE_KEY : String := "HKSwimmingStrokeStyle"

/-- One metadata entry of a lap event (the @key / @value attribute pair). -/
structure MetaEntry where
  key : String
  value : String
  deriving DecidableEq

/-- The label assigned to a stroke-style code: the table entry when the
code is known, otherwise "Unknown (<code>)" (the STROKE_MAP.get default of
extract_lap_metadata). -/
def strokeLabel (v : String) : String :=
  match STROKE_MAP v with
  | some s => s
  | none => "Unknown (" ++ v ++ ")"

/-- The stroke-style component of extract_lap_metadata: scan the metadata
entries in order and keep the label of the last entry whose key is the
stroke-style key; `none` when no such entry exists. (The swolf branch of
the same loop writes an independent variable and is settled separately.) -/
def extractStrokeStyle (md : List MetaEntry) : Option String :=
  md.foldl (fun acc m => if m.key = STROKE_STYLE_KEY then some (strokeLabel m.value) else acc) none

/-- The start time a set summary reports: the first row of the group. -/
def setStart (s : List Row) : Rat := (s.headD defaultRow).lap.lap_start

/-- For one output group, the per-lap mask marking which of its laps is the
first lap of a set: true for the head, false for every later lap. -/
def markFirst {α : Type} : List α → List Bool
  | [] => []
  | _ :: t => true :: t.map (fun _ => false)

/-- For a whole run of the segmenter: which laps (in sorted order) start a
new set, read off from the returned groups. -/
def startMask (thr : Rat) (laps : List Lap) : List Bool :=
  ((analyzeSets thr laps).map markFirst).flatten

/-- Modelled from the spec wording of the segmentation rule: the first lap
always starts a set, and lap i (i > 0) starts a set exactly when
start i - start (i-1) strictly exceeds the threshold. -/
def specNewSetFlags (thr : Rat) : List Lap → List Bool
  | [] => []
  | l :: ls =>
    true :: List.zipWith (fun a b => decide (b.lap_start - a.lap_start > thr)) (l :: ls) ls

/-- Modelled from the spec wording for avg_swolf: the arithmetic mean of
the non-missing swolf values, undefined when there is none. -/
def specAvgSwolf (laps : List Lap) : Option Rat :=
  let vs := laps.filterMap (fun l => l.swolf)
  if vs = [] then none else some (vs.sum / (vs.length : Rat))

/-- Modelled from the spec wording for total_time_seconds: the sum of the
lap durations (native unit minutes), converted to seconds once. -/
def specTotalSec (laps : List Lap) : Rat :=
  ((laps.map (fun l => l.lap_time_min)).sum) * 60

/-- A plain test lap: start time t seconds, one minute long, no stroke
style, no swolf. -/
def mkLap (t : Rat) : Lap := ⟨t, 1, none, none⟩

/-- Scenario A input: laps starting at t = 0, 10, 20, 50, 60 seconds. -/
def scenarioA : List Lap := [mkLap 0, mkLap 10, mkLap 20, mkLap 50, mkLap 60]

/-- Scenario D input: stroke styles Freestyle, Backstroke, Freestyle. -/
def scenarioD : List Lap :=
  [⟨0, 1, some "Freestyle", none⟩, ⟨10, 1, some "Backstroke", none⟩, ⟨20, 1, some "Freestyle", none⟩]

/-- The coherence relation along consecutive rows of the diffed DataFrame:
the later row's diff column holds the start-time gap from the earlier row,
and start times do not decrease. -/
def coh (a b : Row) : Prop :=
  b.lap_start_diff_sec = some (b.lap.lap_start - a.lap.lap_start) ∧
    a.lap.lap_start ≤ b.lap.lap_start

theorem groupRowsGo_flatten (thr : Rat) :
    ∀ (rest cur : List Row), (groupRowsGo thr cur rest).flatten = cur.reverse ++ rest := by
  intro rest
  induction rest with
  | nil => intro cur; simp [groupRowsGo]
  | cons r rs ih =>
    intro cur
    by_cases h : is_new_set thr r = true
    · simp [groupRowsGo, h, ih]
    · simp [groupRowsGo, h, ih]

theorem groupRows_flatten (thr : Rat) (rows : List Row) :
    (groupRows thr rows).flatten = rows := by
  cases rows with
  | nil => rfl
  | cons r rs => simp [groupRows, groupRowsGo_flatten]

theorem zipWith_snd {α : Type} : ∀ (x : α) (ys : List α),
    List.zipWith (fun _ b => b) (x :: ys) ys = ys := by
  intro x ys
  induction ys generalizing x with
  | nil => rfl
  | cons y ys ih => simpa [List.zipWith] using ih y

theorem addDiffs_map_lap : ∀ laps : List Lap, (addDiffs laps).map (fun r => r.lap) = laps := by
  intro laps
  cases laps with
  | nil => rfl
  | cons l ls => simp [addDiffs, List.map_zipWith, zipWith_snd]

theorem groupRowsGo_ne_nil (thr : Rat) :
    ∀ (rest cur : List Row), cur ≠ [] → ∀ s ∈ groupRowsGo thr cur rest, s ≠ [] := by
  intro rest
  induction rest with
  | nil =>
    intro cur hcur s hs
    simp [groupRowsGo] at hs
    simpa [hs] using hcur
  | cons r rs ih =>
    intro cur hcur s hs
    by_cases h : is_new_set thr r = true
    · simp [groupRowsGo, h] at hs
      rcases hs with hs | hs
      · simpa [hs] using hcur
      · exact ih [r] (by simp) s hs
    · simp [groupRowsGo, h] at hs
      exact ih (r :: cur) (by simp) s hs

theorem groupRowsGo_head_ext (thr : Rat) :
    ∀ (rest cur : List Row), ∃ ext gs, groupRowsGo thr cur rest = (cur.reverse ++ ext) :: gs := by
  intro rest
  induction rest with
  | nil => intro cur; exact ⟨[], [], by simp [groupRowsGo]⟩
  | cons r rs ih =>
    intro cur
    by_cases h : is_new_set thr r = true
    · exact ⟨[], groupRowsGo thr [r] rs, by simp [groupRowsGo, h]⟩
    · obtain ⟨ext, gs, hgo⟩ := ih (r :: cur)
      exact ⟨r :: ext, gs, by simpa [groupRowsGo, h] using hgo⟩

theorem markFirst_ne_nil {α : Type} :
    ∀ (l : List α), l ≠ [] → markFirst l = true :: List.replicate (l.length - 1) false := by
  intro l hl
  cases l with
  | nil => exact absurd rfl hl
  | cons x t => simp [markFirst, List.map_const']

theorem chain_go (thr : Rat) (h0 : 0 ≤ thr) :
    ∀ (rest cur : List Row) (prev sfirst : Row),
      cur.head? = some prev →
      cur.reverse.head? = some sfirst →
      sfirst.lap.lap_start ≤ prev.lap.lap_start →
      List.Chain coh prev rest →
      List.Chain' (fun s t => setStart s < setStart t) (groupRowsGo thr cur rest) := by
  intro rest
  induction rest with
  | nil =>
    intro cur prev sfirst h1 h2 h3 h4
    simp [groupRowsGo]
  | cons r rs ih =>
    intro cur prev sfirst h1 h2 h3 h4
    rcases List.chain_cons.mp h4 with ⟨⟨hdiff, hle⟩, hchain⟩
    by_cases hf : is_new_set thr r = true
    · have hgap : thr < r.lap.lap_start - prev.lap.lap_start := by
        unfold is_new_set at hf
        rw [hdiff] at hf
        simpa using hf
      obtain ⟨ext, gs, hgo⟩ := groupRowsGo_head_ext thr rs [r]
      simp only [groupRowsGo, hf, if_true]
      rw [hgo]
      refine List.chain'_cons.mpr ⟨?_, ?_⟩
      · have hstart1 : setStart cur.reverse = sfirst.lap.lap_start := by
          simp [setStart, List.headD_eq_head?, h2]
        have hstart2 : setStart (([r].reverse ++ ext)) = r.lap.lap_start := by
          simp [setStart]
        rw [hstart1, hstart2]
        have : prev.lap.lap_start < r.lap.lap_start := by linarith
        linarith
      · rw [← hgo]
        exact ih [r] r r rfl (by simp) le_rfl hchain
    · simp only [groupRowsGo, hf, if_false]
      refine ih (r :: cur) r sfirst rfl ?_ (le_trans h3 hle) hchain
      have hcur : cur ≠ [] := by
        intro h
        rw [h] at h1
        exact Option.noConfusion h1
      have hrev : cur.reverse ≠ [] := by simpa using hcur
      rw [List.reverse_cons, List.head?_append, h2]
      rfl

theorem addDiffs_chain :
    ∀ (ls : List Lap) (a : Lap) (ra : Row), ra.lap = a → List.Chain' lapRel (a :: ls) →
      List.Chain coh ra
        (List.zipWith (fun x b => Row.mk b (some (b.lap_start - x.lap_start))) (a :: ls) ls) := by
  intro ls
  induction ls with
  | nil => intro a ra h1 h2; exact List.Chain.nil
  | cons b bs ih =>
    intro a ra h1 h2
    rcases List.chain'_cons.mp h2 with ⟨hab, hchain⟩
    refine List.chain_cons.mpr ⟨⟨by rw [h1], by rw [h1]; exact hab⟩, ?_⟩
    exact ih b (Row.mk b (some (b.lap_start - a.lap_start))) rfl hchain

theorem sortLaps_chain (laps : List Lap) : List.Chain' lapRel (sortLaps laps) :=
  (List.sorted_insertionSort lapRel laps).chain'

theorem analyze_chain (thr : Rat) (h0 : 0 ≤ thr) (laps : List Lap) :
    List.Chain' (fun a b : SetSummary => a.set_start_time < b.set_start_time)
      (analyze thr laps) := by
  unfold analyze
  rw [List.chain'_map]
  have hsets : ∀ s t : List Row, ((aggSet s).set_start_time < (aggSet t).set_start_time)
      = (setStart s < setStart t) := by
    intro s t; rfl
  unfold analyzeSets
  have hs := sortLaps_chain laps
  cases hsort : sortLaps laps with
  | nil => simp [addDiffs, groupRows]
  | cons l ls =>
    rw [hsort] at hs
    simp only [addDiffs, groupRows]
    exact chain_go thr h0 _ _ ⟨l, none⟩ ⟨l, none⟩ rfl (by simp) le_rfl
      (addDiffs_chain ls l ⟨l, none⟩ rfl hs)

/-- C1: the sets returned by segmentation partition the input lap sequence
exactly: concatenated in order they give back the sorted input (contiguous,
jointly exhaustive, no loss and no duplication), as a multiset they equal
the input, every set is nonempty, and the reported set start times are
strictly increasing across consecutive output rows. -/
theorem C1_partition (thr : Rat) (laps : List Lap) (h0 : 0 ≤ thr) :
    ((analyzeSets thr laps).map (fun s => s.map (fun r => r.lap))).flatten = sortLaps laps ∧
    ((analyzeSets thr laps).map (fun s => s.map (fun r => r.lap))).flatten.Perm laps ∧
    (∀ s ∈ analyzeSets thr laps, s ≠ []) ∧
    List.Chain' (fun a b : SetSummary => a.set_start_time < b.set_start_time)
      (analyze thr laps) := by
  have hflat : ((analyzeSets thr laps).map (fun s => s.map (fun r => r.lap))).flatten
      = sortLaps laps := by
    rw [← List.map_flatten]
    unfold analyzeSets
    rw [groupRows_flatten, addDiffs_map_lap]
  refine ⟨hflat, ?_, ?_, analyze_chain thr h0 laps⟩
  · rw [hflat]
    exact List.perm_insertionSort lapRel laps
  · intro s hs
    unfold analyzeSets at hs
    cases hrows : addDiffs (sortLaps laps) with
    | nil => rw [hrows] at hs; simp [groupRows] at hs
    | cons r rs =>
      rw [hrows] at hs
      exact groupRowsGo_ne_nil thr rs [r] (by simp) s hs

/-- Witness for C1 at threshold 30 and a concrete two-lap input. -/
theorem C1_partition_witness :
    (0 : Rat) ≤ 30 ∧
    (((analyzeSets 30 [mkLap 40, mkLap 0]).map (fun s => s.map (fun r => r.lap))).flatten
        = sortLaps [mkLap 40, mkLap 0] ∧
      ((analyzeSets 30 [mkLap 40, mkLap 0]).map (fun s => s.map (fun r => r.lap))).flatten.Perm
        [mkLap 40, mkLap 0] ∧
      (∀ s ∈ analyzeSets 30 [mkLap 40, mkLap 0], s ≠ []) ∧
      List.Chain' (fun a b : SetSummary => a.set_start_time < b.set_start_time)
        (analyze 30 [mkLap 40, mkLap 0])) :=
  ⟨by norm_num, C1_partition 30 [mkLap 40, mkLap 0] (by norm_num)⟩

theorem mask_go (thr : Rat) :
    ∀ (rest : List Row) (c : Row) (cs : List Row),
      ((groupRowsGo thr (c :: cs) rest).map markFirst).flatten
        = true :: (List.replicate cs.length false ++ rest.map (is_new_set thr)) := by
  intro rest
  induction rest with
  | nil =>
    intro c cs
    have h := markFirst_ne_nil ((c :: cs).reverse) (by simp)
    simp only [groupRowsGo, List.map_cons, List.map_nil, List.flatten, h]
    simp
  | cons r rs ih =>
    intro c cs
    by_cases hf : is_new_set thr r = true
    · have h := markFirst_ne_nil ((c :: cs).reverse) (by simp)
      simp only [groupRowsGo, hf, if_true, List.map_cons, List.flatten_cons, h]
      rw [ih r []]
      simp [hf]
    · have hstep : groupRowsGo thr (c :: cs) (r :: rs) = groupRowsGo thr (r :: c :: cs) rs := by
        simp [groupRowsGo, hf]
      rw [hstep, ih r (c :: cs)]
      simp only [List.length_cons, List.map_cons, hf]
      rw [List.replicate_succ']
      simp [hf]

theorem addDiffs_map_flag (thr : Rat) :
    ∀ laps : List Lap, (addDiffs laps).map (is_new_set thr) = specNewSetFlags thr laps := by
  intro laps
  cases laps with
  | nil => rfl
  | cons l ls => simp [addDiffs, specNewSetFlags, List.map_zipWith, is_new_set]

/-- C2: a lap of the sorted sequence starts a new set exactly according to
the rule of the spec: the first lap always does, a later lap does iff its
start-time gap from the previous lap strictly exceeds the threshold; in a
two-lap input, the laps are split iff the gap exceeds the threshold, so a
gap of exactly the threshold keeps one set and a gap of threshold plus any
positive epsilon yields two sets. -/
theorem C2_threshold (thr ε : Rat) (laps : List Lap) (a b : Lap) (hε : 0 < ε) :
    startMask thr laps = specNewSetFlags thr (sortLaps laps) ∧
    (groupRows thr (addDiffs [a, b])).length
      = (if b.lap_start - a.lap_start > thr then 2 else 1) ∧
    (groupRows thr (addDiffs [mkLap 0, mkLap thr])).length = 1 ∧
    (groupRows thr (addDiffs [mkLap 0, mkLap (thr + ε)])).length = 2 := by
  have key : ∀ x y : Lap, (groupRows thr (addDiffs [x, y])).length
      = (if y.lap_start - x.lap_start > thr then 2 else 1) := by
    intro x y
    by_cases hg : y.lap_start - x.lap_start > thr
    · simp [addDiffs, groupRows, groupRowsGo, is_new_set, hg]
    · simp [addDiffs, groupRows, groupRowsGo, is_new_set, hg]
  refine ⟨?_, key a b, ?_, ?_⟩
  · unfold startMask analyzeSets
    cases hsort : sortLaps laps with
    | nil => simp [addDiffs, groupRows, specNewSetFlags]
    | cons l ls =>
      have hmap := addDiffs_map_flag thr (l :: ls)
      simp only [addDiffs] at hmap ⊢
      simp only [groupRows]
      rw [mask_go thr _ ⟨l, none⟩ []]
      simp only [List.length_nil, List.replicate_zero, List.nil_append]
      simp only [List.map_cons, is_new_set] at hmap
      exact hmap
  · rw [key]
    have : ¬ ((mkLap thr).lap_start - (mkLap 0).lap_start > thr) := by
      simp [mkLap]
    simp [this]
  · rw [key]
    have : (mkLap (thr + ε)).lap_start - (mkLap 0).lap_start > thr := by
      simp [mkLap]; linarith
    simp [this]

/-- Witness for C2 at threshold 30, epsilon 1 and a concrete lap pair. -/
theorem C2_threshold_witness :
    (0 : Rat) < 1 ∧
    (startMask 30 [mkLap 0, mkLap 45] = specNewSetFlags 30 (sortLaps [mkLap 0, mkLap 45]) ∧
      (groupRows 30 (addDiffs [mkLap 0, mkLap 45])).length
        = (if (mkLap 45).lap_start - (mkLap 0).lap_start > 30 then 2 else 1) ∧
      (groupRows 30 (addDiffs [mkLap 0, mkLap 30])).length = 1 ∧
      (groupRows 30 (addDiffs [mkLap 0, mkLap (30 + 1)])).length = 2) :=
  ⟨by norm_num, C2_threshold 30 1 [mkLap 0, mkLap 45] (mkLap 0) (mkLap 45) (by norm_num)⟩

theorem scenarioA_eval :
    (analyzeSets 30 scenarioA).map (fun s => s.map (fun r => r.lap)) = [scenarioA] := by
  norm_num [analyzeSets, scenarioA, mkLap, sortLaps, List.insertionSort, List.orderedInsert,
    lapRel, addDiffs, groupRows, groupRowsGo, is_new_set]

/-- C3 counterexample: on laps at t = 0, 10, 20, 50, 60 with threshold 30
the segmentation does NOT return the two claimed sets: the 20 to 50 gap is
exactly 30 seconds, which does not strictly exceed the threshold. -/
theorem C3_scenarioA_counterexample :
    ¬ ((analyzeSets 30 scenarioA).map (fun s => s.map (fun r => r.lap))
        = [[mkLap 0, mkLap 10, mkLap 20], [mkLap 50, mkLap 60]]) := by
  rw [scenarioA_eval]
  simp [scenarioA, mkLap]

/-- C3 amended: on laps at t = 0, 10, 20, 50, 60 with threshold 30 the
segmentation returns exactly one set holding all five laps (the largest
gap equals the threshold and does not split); widening the rest gap past
the threshold, e.g. laps at t = 0, 10, 20, 51, 61, gives the two sets. -/
theorem C3_scenarioA_amended :
    (analyzeSets 30 scenarioA).map (fun s => s.map (fun r => r.lap)) = [scenarioA] ∧
    (analyzeSets 30 [mkLap 0, mkLap 10, mkLap 20, mkLap 51, mkLap 61]).map
        (fun s => s.map (fun r => r.lap))
      = [[mkLap 0, mkLap 10, mkLap 20], [mkLap 51, mkLap 61]] := by
  refine ⟨scenarioA_eval, ?_⟩
  norm_num [analyzeSets, mkLap, sortLaps, List.insertionSort, List.orderedInsert,
    lapRel, addDiffs, groupRows, groupRowsGo, is_new_set]

/-- C4: evaluating the code at a single lap shows the defect: the only set
is reported with lap_count 0 (the diff of the first row is missing and the
count aggregation skips it) and hence distance 0 and an infinite pace,
where the claim requires lap_count 1 and distance equal to one lap. -/
theorem C4_single_lap_eval :
    analyze 30 [mkLap 0]
      = [{ set_start_time := 0, total_time_sec := 60, avg_swolf := none, stroke_combo := "",
           lap_count := 0, distance_m := 0, pace_sec_per_50m := PyVal.inf }] := by
  norm_num [analyze, analyzeSets, sortLaps, List.insertionSort, List.orderedInsert, lapRel,
    addDiffs, groupRows, groupRowsGo, is_new_set, aggSet, mkLap, strokeList, pydiv,
    LAP_DISTANCE_M, PACE_DISTANCE_M, defaultRow, setStart, List.filterMap_cons]
  decide

/-- C5: evaluating the code at the empty input shows the defect: instead
of an empty summary, the run aborts, because the empty record list gives a
DataFrame with no columns and sort_values raises KeyError. -/
theorem C5_empty_input_eval :
    analyze_swim_sets 30 [] = Except.error "KeyError: lap_start" := rfl

/-- C9: evaluating the code at two far-apart laps shows the defect: the
first summary row has distance 0 and its pace is the numeric float
infinity, which the display formatter passes through unchanged, not an
explicit undefined/null value; the second set is still processed. -/
theorem C9_zero_distance_pace_eval :
    (analyze 30 [mkLap 0, mkLap 100]).map (fun r => r.pace_sec_per_50m)
        = [PyVal.inf, PyVal.num 120] ∧
    format_numeric_value PyVal.inf = Except.ok PyVal.inf ∧
    (analyze 30 [mkLap 0, mkLap 100]).map (fun r => r.distance_m) = [0, 25] := by
  refine ⟨?_, rfl, ?_⟩ <;>
    norm_num [analyze, analyzeSets, sortLaps, List.insertionSort, List.orderedInsert, lapRel,
      addDiffs, groupRows, groupRowsGo, is_new_set, aggSet, mkLap, strokeList, pydiv,
      LAP_DISTANCE_M, PACE_DISTANCE_M, defaultRow, setStart, List.filterMap_cons]

/-- C6: for every set the aggregation produces, avg_swolf is the
arithmetic mean of the defined swolf values of its laps as the spec words
it, and when no lap of the set has a defined swolf value it is undefined,
never the number 0. -/
theorem C6_avg_swolf (thr : Rat) (laps : List Lap) :
    ∀ s ∈ analyzeSets thr laps,
      (aggSet s).avg_swolf = specAvgSwolf (s.map (fun r => r.lap)) ∧
      ((∀ r ∈ s, r.lap.swolf = none) →
        (aggSet s).avg_swolf = none ∧ (aggSet s).avg_swolf ≠ some 0) := by
  intro s _hs
  have hmaps : (s.map (fun r => r.lap)).filterMap (fun l => l.swolf)
      = s.filterMap (fun r => r.lap.swolf) := by
    rw [List.filterMap_map]
    rfl
  constructor
  · simp only [aggSet, specAvgSwolf, hmaps]
    by_cases h : s.filterMap (fun r => r.lap.swolf) = []
    · simp [h]
    · simp [h, List.isEmpty_iff]
  · intro h
    have hnil : s.filterMap (fun r => r.lap.swolf) = [] :=
      List.filterMap_eq_nil_iff.mpr (fun r hr => h r hr)
    constructor
    · simp [aggSet, hnil]
    · simp [aggSet, hnil]

/-- Witness for C6 at a single swolf-free lap. -/
theorem C6_avg_swolf_witness :
    ([(⟨mkLap 0, none⟩ : Row)] ∈ analyzeSets 30 [mkLap 0]) ∧
    (∀ r ∈ [(⟨mkLap 0, none⟩ : Row)], r.lap.swolf = none) ∧
    (aggSet [(⟨mkLap 0, none⟩ : Row)]).avg_swolf = specAvgSwolf ([(⟨mkLap 0, none⟩ : Row)].map (fun r => r.lap)) ∧
    (aggSet [(⟨mkLap 0, none⟩ : Row)]).avg_swolf = none ∧
    (aggSet [(⟨mkLap 0, none⟩ : Row)]).avg_swolf ≠ some 0 := by
  have hmem : ([(⟨mkLap 0, none⟩ : Row)] ∈ analyzeSets 30 [mkLap 0]) := by
    norm_num [analyzeSets, sortLaps, List.insertionSort, List.orderedInsert, addDiffs,
      groupRows, groupRowsGo, is_new_set]
  have hnone : (∀ r ∈ [(⟨mkLap 0, none⟩ : Row)], r.lap.swolf = none) := by
    simp [mkLap]
  have h := C6_avg_swolf 30 [mkLap 0] [(⟨mkLap 0, none⟩ : Row)] hmem
  exact ⟨hmem, hnone, h.1, (h.2 hnone).1, (h.2 hnone).2⟩

/-- C8: for every set the aggregation produces, total_time_sec is the sum
of the laps' durations converted from minutes to seconds exactly once, and
whenever the distance is nonzero the pace is total_time_sec divided by
(distance_m / pace reference distance). -/
theorem C8_time_and_pace (thr : Rat) (laps : List Lap) :
    ∀ s ∈ analyzeSets thr laps,
      (aggSet s).total_time_sec = specTotalSec (s.map (fun r => r.lap)) ∧
      ((aggSet s).distance_m ≠ 0 →
        (aggSet s).pace_sec_per_50m
          = PyVal.num ((aggSet s).total_time_sec / ((aggSet s).distance_m / PACE_DISTANCE_M))) := by
  intro s _hs
  constructor
  · simp only [aggSet, specTotalSec, List.map_map]
    rfl
  · intro hdist
    have hδ : ((s.filterMap (fun r => r.lap_start_diff_sec)).length : Rat) * LAP_DISTANCE_M ≠ 0 := by
      simpa [aggSet] using hdist
    have hdiv : ((s.filterMap (fun r => r.lap_start_diff_sec)).length : Rat) * LAP_DISTANCE_M
        / PACE_DISTANCE_M ≠ 0 := by
      unfold PACE_DISTANCE_M
      exact div_ne_zero hδ (by norm_num)
    simp [aggSet, pydiv, hdiv]

/-- Witness for C8 at the one-lap set that follows a long rest. -/
theorem C8_time_and_pace_witness :
    ([(⟨mkLap 100, some 100⟩ : Row)] ∈ analyzeSets 30 [mkLap 0, mkLap 100]) ∧
    (aggSet [(⟨mkLap 100, some 100⟩ : Row)]).distance_m ≠ 0 ∧
    (aggSet [(⟨mkLap 100, some 100⟩ : Row)]).total_time_sec
      = specTotalSec ([(⟨mkLap 100, some 100⟩ : Row)].map (fun r => r.lap)) ∧
    (aggSet [(⟨mkLap 100, some 100⟩ : Row)]).pace_sec_per_50m
      = PyVal.num ((aggSet [(⟨mkLap 100, some 100⟩ : Row)]).total_time_sec
          / ((aggSet [(⟨mkLap 100, some 100⟩ : Row)]).distance_m / PACE_DISTANCE_M)) := by
  have hmem : ([(⟨mkLap 100, some 100⟩ : Row)] ∈ analyzeSets 30 [mkLap 0, mkLap 100]) := by
    norm_num [analyzeSets, sortLaps, List.insertionSort, List.orderedInsert, lapRel, addDiffs,
      groupRows, groupRowsGo, is_new_set, mkLap]
  have hdist : (aggSet [(⟨mkLap 100, some 100⟩ : Row)]).distance_m ≠ 0 := by
    norm_num [aggSet, List.filterMap_cons, LAP_DISTANCE_M]
  have h := C8_time_and_pace 30 [mkLap 0, mkLap 100] [(⟨mkLap 100, some 100⟩ : Row)] hmem
  exact ⟨hmem, hdist, h.1, h.2 hdist⟩

/-- C7: for every set the aggregation produces, stroke_combo is the
slash-join of a list that is sorted, duplicate-free and holds exactly the
distinct non-missing stroke styles of the set (so no missing marker can
appear), it is the empty string when no style is present, and on the
Scenario D styles Freestyle, Backstroke, Freestyle the combo is
"Backstroke/Freestyle". -/
theorem C7_stroke_combo (thr : Rat) (laps : List Lap) :
    (∀ s ∈ analyzeSets thr laps,
      (aggSet s).stroke_combo = String.intercalate "/" (strokeList s) ∧
      List.Pairwise (fun a b : String => a ≤ b) (strokeList s) ∧
      (strokeList s).Nodup ∧
      (∀ x : String, x ∈ strokeList s ↔ ∃ r ∈ s, r.lap.stroke_style = some x) ∧
      ((∀ r ∈ s, r.lap.stroke_style = none) → (aggSet s).stroke_combo = "")) ∧
    (analyze 30 scenarioD).map (fun row => row.stroke_combo) = ["Backstroke/Freestyle"] := by
  constructor
  · intro s _hs
    refine ⟨rfl, ?_, ?_, ?_, ?_⟩
    · exact List.sorted_insertionSort (fun a b : String => a ≤ b) _
    · exact ((List.perm_insertionSort (fun a b : String => a ≤ b) _).symm).nodup
        (List.nodup_dedup _)
    · intro x
      simp [strokeList, List.mem_insertionSort, List.mem_dedup, List.mem_filterMap]
    · intro h
      have hnil : s.filterMap (fun r => r.lap.stroke_style) = [] :=
        List.filterMap_eq_nil_iff.mpr (fun r hr => h r hr)
      have hlist : strokeList s = [] := by
        simp [strokeList, hnil]
      show String.intercalate "/" (strokeList s) = ""
      rw [hlist]
      decide
  · have hBF : ("Backstroke" : String) ≤ "Freestyle" := by
      simp
      decide
    have hrows : analyzeSets 30 scenarioD
        = [[⟨⟨0, 1, some "Freestyle", none⟩, none⟩,
            ⟨⟨10, 1, some "Backstroke", none⟩, some 10⟩,
            ⟨⟨20, 1, some "Freestyle", none⟩, some 10⟩]] := by
      norm_num [analyzeSets, scenarioD, sortLaps, List.insertionSort, List.orderedInsert,
        lapRel, addDiffs, groupRows, groupRowsGo, is_new_set]
    have hdd : (["Freestyle", "Backstroke", "Freestyle"] : List String).dedup
        = ["Backstroke", "Freestyle"] := by decide
    rw [analyze, hrows]
    simp only [List.map_cons, List.map_nil]
    have hcombo : (aggSet [⟨⟨0, 1, some "Freestyle", none⟩, none⟩,
        ⟨⟨10, 1, some "Backstroke", none⟩, some 10⟩,
        ⟨⟨20, 1, some "Freestyle", none⟩, some 10⟩]).stroke_combo
        = "Backstroke/Freestyle" := by
      show String.intercalate "/" (strokeList _) = _
      rw [strokeList]
      simp only [List.filterMap_cons, List.filterMap_nil]
      rw [hdd]
      simp [List.insertionSort, List.orderedInsert, hBF]
      decide
    rw [hcombo]

/-- Witness for C7 at the Scenario D set. -/
theorem C7_stroke_combo_witness :
    ([(⟨⟨0, 1, some "Freestyle", none⟩, none⟩ : Row),
      ⟨⟨10, 1, some "Backstroke", none⟩, some 10⟩,
      ⟨⟨20, 1, some "Freestyle", none⟩, some 10⟩] ∈ analyzeSets 30 scenarioD) ∧
    (aggSet [(⟨⟨0, 1, some "Freestyle", none⟩, none⟩ : Row),
      ⟨⟨10, 1, some "Backstroke", none⟩, some 10⟩,
      ⟨⟨20, 1, some "Freestyle", none⟩, some 10⟩]).stroke_combo
      = String.intercalate "/" (strokeList [(⟨⟨0, 1, some "Freestyle", none⟩, none⟩ : Row),
          ⟨⟨10, 1, some "Backstroke", none⟩, some 10⟩,
          ⟨⟨20, 1, some "Freestyle", none⟩, some 10⟩]) ∧
    ("Backstroke" ∈ strokeList [(⟨⟨0, 1, some "Freestyle", none⟩, none⟩ : Row),
        ⟨⟨10, 1, some "Backstroke", none⟩, some 10⟩,
        ⟨⟨20, 1, some "Freestyle", none⟩, some 10⟩]
      ↔ ∃ r ∈ [(⟨⟨0, 1, some "Freestyle", none⟩, none⟩ : Row),
          ⟨⟨10, 1, some "Backstroke", none⟩, some 10⟩,
          ⟨⟨20, 1, some "Freestyle", none⟩, some 10⟩], r.lap.stroke_style = some "Backstroke") := by
  have hmem : ([(⟨⟨0, 1, some "Freestyle", none⟩, none⟩ : Row),
      ⟨⟨10, 1, some "Backstroke", none⟩, some 10⟩,
      ⟨⟨20, 1, some "Freestyle", none⟩, some 10⟩] ∈ analyzeSets 30 scenarioD) := by
    norm_num [analyzeSets, scenarioD, sortLaps, List.insertionSort, List.orderedInsert,
      lapRel, addDiffs, groupRows, groupRowsGo, is_new_set]
  have h := (C7_stroke_combo 30 scenarioD).1 _ hmem
  exact ⟨hmem, h.1, h.2.2.2.1 "Backstroke"⟩

theorem extract_foldl_none :
    ∀ (md : List MetaEntry) (acc : Option String),
      md.foldl (fun acc m =>
          if m.key = STROKE_STYLE_KEY then some (strokeLabel m.value) else acc) acc = none
        ↔ (acc = none ∧ ∀ m ∈ md, m.key ≠ STROKE_STYLE_KEY) := by
  intro md
  induction md with
  | nil => intro acc; simp
  | cons m ms ih =>
    intro acc
    by_cases hk : m.key = STROKE_STYLE_KEY
    · simp [List.foldl_cons, hk, ih]
    · simp only [List.foldl_cons, hk, if_false, ih, List.mem_cons]
      constructor
      · rintro ⟨h1, h2⟩
        exact ⟨h1, fun m' hm' => by
          rcases hm' with hm' | hm'
          · rw [hm']; exact hk
          · exact h2 m' hm'⟩
      · rintro ⟨h1, h2⟩
        exact ⟨h1, fun m' hm' => h2 m' (Or.inr hm')⟩

/-- C10: a stroke-style metadata entry whose code is outside the stroke
table yields the non-missing label Unknown (code); a lap whose metadata
ends with a stroke-style entry gets that label, the extracted style is
missing exactly when no stroke-style entry exists at all, and every
non-missing style of a set's lap appears in the set's stroke list. -/
theorem C10_unknown_stroke (md : List MetaEntry) (c x : String) (thr : Rat) (laps : List Lap) :
    (STROKE_MAP c = none → strokeLabel c = "Unknown (" ++ c ++ ")") ∧
    extractStrokeStyle (md ++ [⟨STROKE_STYLE_KEY, c⟩]) = some (strokeLabel c) ∧
    (extractStrokeStyle md = none ↔ ∀ m ∈ md, m.key ≠ STROKE_STYLE_KEY) ∧
    (∀ s ∈ analyzeSets thr laps, ∀ r ∈ s, r.lap.stroke_style = some x → x ∈ strokeList s) := by
  refine ⟨?_, ?_, ?_, ?_⟩
  · intro h
    simp [strokeLabel, h]
  · simp [extractStrokeStyle, List.foldl_append]
  · simpa [extractStrokeStyle] using extract_foldl_none md none
  · intro s _hs r hr hx
    simp only [strokeList, List.mem_insertionSort, List.mem_dedup, List.mem_filterMap]
    exact ⟨r, hr, hx⟩

/-- Witness for C10 with the unknown stroke code 9. -/
theorem C10_unknown_stroke_witness :
    (STROKE_MAP "9" = none) ∧
    strokeLabel "9" = "Unknown (" ++ "9" ++ ")" ∧
    extractStrokeStyle ([⟨"other", "7"⟩] ++ [⟨STROKE_STYLE_KEY, "9"⟩]) = some (strokeLabel "9") ∧
    (extractStrokeStyle [(⟨"other", "7"⟩ : MetaEntry)] = none
      ↔ ∀ m ∈ [(⟨"other", "7"⟩ : MetaEntry)], m.key ≠ STROKE_STYLE_KEY) ∧
    ([(⟨⟨0, 1, some "Unknown (9)", none⟩, none⟩ : Row)]
        ∈ analyzeSets 30 [⟨0, 1, some "Unknown (9)", none⟩]) ∧
    "Unknown (9)" ∈ strokeList [(⟨⟨0, 1, some "Unknown (9)", none⟩, none⟩ : Row)] := by
  have hmap : STROKE_MAP "9" = none := by decide
  have hmem : ([(⟨⟨0, 1, some "Unknown (9)", none⟩, none⟩ : Row)]
      ∈ analyzeSets 30 [⟨0, 1, some "Unknown (9)", none⟩]) := by
    norm_num [analyzeSets, sortLaps, List.insertionSort, List.orderedInsert, addDiffs,
      groupRows, groupRowsGo, is_new_set]
  have h := C10_unknown_stroke [⟨"other", "7"⟩] "9" "Unknown (9)" 30
    [⟨0, 1, some "Unknown (9)", none⟩]
  exact ⟨hmap, h.1 hmap, h.2.1, h.2.2.1, hmem,
    h.2.2.2 _ hmem (⟨⟨0, 1, some "Unknown (9)", none⟩, none⟩ : Row) (by simp) rfl⟩
